import Mathlib

/-!
Verification of the takopi-ralph loop-control and PRD subsystem.

Source embedding notes: `prd/manager.py`, `engine/runner.py`,
`command/handlers/start.py` and `clarify/prd_builder.py` are embedded from the
repository source. The PRD schema (`prd/schema.py`), the state manager
(`state/`), the circuit breaker and the response analyzer are not shipped with
the excerpt; their definitions below are modelled from the specification and
carry a doc comment saying so.
-/

namespace TakopiRalph

/-- Modelled from the spec: quality level enumeration of a PRD
(prototype / production / library); `prd/schema.py` is missing. -/
inductive QualityLevel where
  | prototype
  | production
  | library
deriving DecidableEq, Repr

/-- Modelled from the spec: one unit of work within a PRD, with integer id,
title, description, acceptance criteria, priority (lower = higher), a boolean
completion flag `passes` and optional notes; `prd/schema.py` is missing. -/
structure UserStory where
  id : Int
  title : String
  description : String
  acceptance_criteria : List String
  priority : Int
  passes : Bool
  notes : Option String
deriving DecidableEq, Repr

/-- Modelled from the spec: a project requirement set with name, description,
creation timestamp (kept abstract as a string), ordered stories, a quality
level and feedback commands; `prd/schema.py` is missing. -/
structure PRD where
  project_name : String
  description : String
  created_at : String
  stories : List UserStory
  quality_level : QualityLevel
  feedback_commands : List (String × String)
deriving DecidableEq, Repr

/-- Modelled from the spec: `PRD(project_name="", description="")`, the empty
PRD returned by the defensive load path (empty name, zero stories). -/
def emptyPRD : PRD :=
  { project_name := ""
  , description := ""
  , created_at := ""
  , stories := []
  , quality_level := .prototype
  , feedback_commands := [] }

/-- Strict priority order on stories: lower priority value first, ties broken
by ascending id. -/
def storyBefore (a b : UserStory) : Bool :=
  decide (a.priority < b.priority) ||
    (decide (a.priority = b.priority) && decide (a.id < b.id))

/-- Accumulator step selecting the earlier story in priority order. -/
def chooseBetter (acc : Option UserStory) (s : UserStory) : Option UserStory :=
  match acc with
  | none => some s
  | some t => if storyBefore s t then some s else some t

/-- Modelled from the spec: `PRD.next_story` returns the first story in
priority order, ties broken by ascending id, whose `passes` is false, and none
if all stories are complete or there are no stories; `prd/schema.py` is
missing. -/
def PRD.next_story (p : PRD) : Option UserStory :=
  (p.stories.filter fun s => !s.passes).foldl chooseBetter none

/-- Modelled from the spec: `PRD.all_complete` is true when every story's
`passes` flag is set (vacuously true with no stories); `prd/schema.py` is
missing. -/
def PRD.all_complete (p : PRD) : Bool :=
  p.stories.all (·.passes)

/-- Non-strict version of the priority order, as a proposition. -/
def sLE (a b : UserStory) : Prop :=
  a.priority < b.priority ∨ (a.priority = b.priority ∧ a.id ≤ b.id)

theorem sLE_refl (a : UserStory) : sLE a a := by
  right; exact ⟨rfl, le_refl _⟩

theorem sLE_trans {a b c : UserStory} (h1 : sLE a b) (h2 : sLE b c) : sLE a c := by
  unfold sLE at *
  omega

theorem storyBefore_true {a b : UserStory} (h : storyBefore a b = true) : sLE a b := by
  unfold storyBefore at h
  unfold sLE
  simp only [Bool.or_eq_true, Bool.and_eq_true, decide_eq_true_eq] at h
  omega

theorem storyBefore_false {a b : UserStory} (h : storyBefore a b = false) : sLE b a := by
  unfold storyBefore at h
  unfold sLE
  simp only [Bool.or_eq_false_iff, Bool.and_eq_false_iff, decide_eq_false_iff_not] at h
  omega

theorem foldl_chooseBetter_some (l : List UserStory) :
    ∀ t : UserStory, ∃ r, l.foldl chooseBetter (some t) = some r ∧
      (r = t ∨ r ∈ l) ∧ sLE r t ∧ ∀ u ∈ l, sLE r u := by
  induction l with
  | nil =>
      intro t
      exact ⟨t, rfl, Or.inl rfl, sLE_refl t, by simp⟩
  | cons s ls ih =>
      intro t
      rw [List.foldl_cons]
      by_cases h : storyBefore s t = true
      · have hst : sLE s t := storyBefore_true h
        obtain ⟨r, hr, hmem, hrs, hall⟩ := ih s
        refine ⟨r, ?_, ?_, sLE_trans hrs hst, ?_⟩
        · simpa [chooseBetter, h] using hr
        · rcases hmem with h1 | h1
          · exact Or.inr (by simp [h1])
          · exact Or.inr (by simp [h1])
        · intro u hu
          rcases List.mem_cons.mp hu with h1 | h1
          · exact h1 ▸ hrs
          · exact hall u h1
      · have hts : sLE t s := storyBefore_false (Bool.eq_false_iff.mpr h)
        obtain ⟨r, hr, hmem, hrt, hall⟩ := ih t
        refine ⟨r, ?_, ?_, hrt, ?_⟩
        · simpa [chooseBetter, h] using hr
        · rcases hmem with h1 | h1
          · exact Or.inl h1
          · exact Or.inr (by simp [h1])
        · intro u hu
          rcases List.mem_cons.mp hu with h1 | h1
          · exact h1 ▸ sLE_trans hrt hts
          · exact hall u h1

/-- C1: `next_story` returns none exactly when `all_complete` is true, and
when it returns a story that story is an incomplete member of the PRD that is
minimal in (priority, id) order among all incomplete stories. -/
theorem C1_next_story (p : PRD) :
    (p.next_story = none ↔ p.all_complete = true) ∧
    (∀ s, p.next_story = some s →
      s ∈ p.stories ∧ s.passes = false ∧
      ∀ t ∈ p.stories, t.passes = false →
        s.priority < t.priority ∨ (s.priority = t.priority ∧ s.id ≤ t.id)) := by
  unfold PRD.next_story PRD.all_complete
  rcases hl : p.stories.filter (fun s => !s.passes) with _ | ⟨s0, ls⟩
  · rw [hl]
    constructor
    · simp only [List.foldl_nil]
      constructor
      · intro _
        rw [List.all_eq_true]
        intro a ha
        by_contra hpa
        have : a ∈ p.stories.filter (fun s => !s.passes) := by
          rw [List.mem_filter]
          exact ⟨ha, by simp [Bool.eq_false_iff.mpr hpa]⟩
        rw [hl] at this
        exact absurd this (List.not_mem_nil a)
      · intro _; trivial
    · intro s hs
      simp only [List.foldl_nil] at hs
      exact absurd hs (by simp)
  · obtain ⟨r, hr, hmem, hrs0, hall⟩ := foldl_chooseBetter_some ls s0
    have hfold : (s0 :: ls).foldl chooseBetter none = some r := by
      rw [List.foldl_cons]
      exact hr
    rw [hl]
    constructor
    · rw [hfold]
      constructor
      · intro h; exact absurd h (by simp)
      · intro h
        rw [List.all_eq_true] at h
        have hs0 : s0 ∈ p.stories.filter (fun s => !s.passes) := by
          rw [hl]; exact List.mem_cons_self s0 ls
        rw [List.mem_filter] at hs0
        have := h s0 hs0.1
        simp only [Bool.not_eq_true'] at hs0
        rw [hs0.2] at this
        exact absurd this (by simp)
    · intro s hs
      rw [hfold] at hs
      have hrs : r = s := by injection hs
      subst hrs
      have hrmem : r ∈ p.stories.filter (fun s => !s.passes) := by
        rw [hl]
        rcases hmem with h1 | h1
        · simp [h1]
        · simp [h1]
      rw [List.mem_filter] at hrmem
      refine ⟨hrmem.1, by simpa using hrmem.2, ?_⟩
      intro t ht hpt
      have htf : t ∈ p.stories.filter (fun s => !s.passes) := by
        rw [List.mem_filter]
        exact ⟨ht, by simp [hpt]⟩
      rw [hl] at htf
      rcases List.mem_cons.mp htf with h1 | h1
      · subst h1
        exact hrs0
      · exact hall t h1

/-- A concrete PRD used as evaluation input: two incomplete stories with equal
priority (ids 1 and 3) and one complete story. -/
def storyA1 : UserStory :=
  { id := 1, title := "First", description := "d1", acceptance_criteria := ["c1"]
  , priority := 2, passes := false, notes := none }

def storyA2 : UserStory :=
  { id := 2, title := "Second", description := "d2", acceptance_criteria := []
  , priority := 1, passes := true, notes := some "done" }

def storyA3 : UserStory :=
  { id := 3, title := "Third", description := "d3", acceptance_criteria := []
  , priority := 2, passes := false, notes := none }

def prdA : PRD :=
  { project_name := "Demo", description := "demo project", created_at := "t0"
  , stories := [storyA1, storyA2, storyA3], quality_level := .prototype
  , feedback_commands := [("test", "pytest")] }

/-- Witness for C1 at a concrete PRD: the returned story is the minimal
incomplete one. -/
theorem C1_next_story_witness :
    prdA.next_story = some storyA1 ∧ storyA1.passes = false :=
  ⟨rfl, ((C1_next_story prdA).2 storyA1 rfl).2.1⟩

/-! ### JSON document model

`prd.json` is persisted as a JSON document (pydantic `model_dump_json` /
`model_validate` in `prd/schema.py`, which is missing from the excerpt). The
document layer below the string level is modelled as a JSON syntax tree; the
codec follows the spec's §6 field layout. -/

inductive Json where
  | null
  | bool (b : Bool)
  | num (n : Int)
  | str (s : String)
  | arr (items : List Json)
  | obj (fields : List (String × Json))

/-- Key lookup in a JSON object's field list (first match wins). -/
def lookupField : List (String × Json) → String → Option Json
  | [], _ => none
  | (k, v) :: rest, key => if k = key then some v else lookupField rest key

def Json.get? (j : Json) (key : String) : Option Json :=
  match j with
  | .obj fields => lookupField fields key
  | _ => none

def Json.hasKey (j : Json) (key : String) : Bool :=
  match j.get? key with
  | some _ => true
  | none => false

def decodeString : Json → Option String
  | .str s => some s
  | _ => none

def decodeInt : Json → Option Int
  | .num n => some n
  | _ => none

def decodeBool : Json → Option Bool
  | .bool b => some b
  | _ => none

def decodeNotes : Json → Option (Option String)
  | .null => some none
  | .str s => some (some s)
  | _ => none

def decodeStrings : List Json → Option (List String)
  | [] => some []
  | j :: rest =>
      match decodeString j, decodeStrings rest with
      | some s, some ss => some (s :: ss)
      | _, _ => none

/-- Modelled from the spec: JSON encoding of a `UserStory` per the §6 layout
`{id, title, description, acceptance_criteria, priority, passes, notes}`;
`prd/schema.py` is missing. -/
def encodeStory (s : UserStory) : Json :=
  .obj [ ("id", .num s.id)
       , ("title", .str s.title)
       , ("description", .str s.description)
       , ("acceptance_criteria", .arr (s.acceptance_criteria.map Json.str))
       , ("priority", .num s.priority)
       , ("passes", .bool s.passes)
       , ("notes", match s.notes with | none => Json.null | some n => Json.str n) ]

/-- Modelled from the spec: JSON decoding (schema validation) of a
`UserStory`; `prd/schema.py` is missing. -/
def decodeStory (j : Json) : Option UserStory := do
  let id ← (j.get? "id").bind decodeInt
  let title ← (j.get? "title").bind decodeString
  let description ← (j.get? "description").bind decodeString
  let ac ← match j.get? "acceptance_criteria" with
           | some (.arr items) => decodeStrings items
           | _ => none
  let priority ← (j.get? "priority").bind decodeInt
  let passes ← (j.get? "passes").bind decodeBool
  let notes ← (j.get? "notes").bind decodeNotes
  some { id := id, title := title, description := description
       , acceptance_criteria := ac, priority := priority, passes := passes
       , notes := notes }

def decodeStories : List Json → Option (List UserStory)
  | [] => some []
  | j :: rest =>
      match decodeStory j, decodeStories rest with
      | some s, some ss => some (s :: ss)
      | _, _ => none

def encodeQuality : QualityLevel → Json
  | .prototype => .str "prototype"
  | .production => .str "production"
  | .library => .str "library"

def decodeQuality : Json → Option QualityLevel
  | .str "prototype" => some .prototype
  | .str "production" => some .production
  | .str "library" => some .library
  | _ => none

def decodeCommands : List (String × Json) → Option (List (String × String))
  | [] => some []
  | (k, v) :: rest =>
      match decodeString v, decodeCommands rest with
      | some s, some ss => some ((k, s) :: ss)
      | _, _ => none

/-- Modelled from the spec: JSON encoding of a PRD per the §6 layout
`{project_name, description, created_at, stories, quality_level,
feedback_commands}`; `prd/schema.py` is missing. -/
def PRD.toJson (p : PRD) : Json :=
  .obj [ ("project_name", .str p.project_name)
       , ("description", .str p.description)
       , ("created_at", .str p.created_at)
       , ("stories", .arr (p.stories.map encodeStory))
       , ("quality_level", encodeQuality p.quality_level)
       , ("feedback_commands", .obj (p.feedback_commands.map fun kv => (kv.1, Json.str kv.2))) ]

/-- Modelled from the spec: JSON decoding (pydantic `PRD.model_validate`) per
the §6 layout; `prd/schema.py` is missing. -/
def decodePRD (j : Json) : Option PRD := do
  let pn ← (j.get? "project_name").bind decodeString
  let desc ← (j.get? "description").bind decodeString
  let ca ← (j.get? "created_at").bind decodeString
  let stories ← match j.get? "stories" with
                | some (.arr items) => decodeStories items
                | _ => none
  let ql ← (j.get? "quality_level").bind decodeQuality
  let fc ← match j.get? "feedback_commands" with
           | some (.obj fields) => decodeCommands fields
           | _ => none
  some { project_name := pn, description := desc, created_at := ca
       , stories := stories, quality_level := ql, feedback_commands := fc }

theorem decodeStrings_encode (l : List String) :
    decodeStrings (l.map Json.str) = some l := by
  induction l with
  | nil => rfl
  | cons s rest ih => simp [decodeStrings, decodeString, ih]

theorem decodeStory_encode (s : UserStory) : decodeStory (encodeStory s) = some s := by
  rcases s with ⟨id, title, description, ac, priority, passes, notes⟩
  rcases notes with _ | n <;>
    simp [encodeStory, decodeStory, Json.get?, lookupField, decodeInt,
      decodeString, decodeBool, decodeNotes, decodeStrings_encode]

theorem decodeStories_encode (l : List UserStory) :
    decodeStories (l.map encodeStory) = some l := by
  induction l with
  | nil => rfl
  | cons s rest ih => simp [decodeStories, decodeStory_encode, ih]

theorem decodeQuality_encode (q : QualityLevel) :
    decodeQuality (encodeQuality q) = some q := by
  cases q <;> rfl

theorem decodeCommands_encode (l : List (String × String)) :
    decodeCommands (l.map fun kv => (kv.1, Json.str kv.2)) = some l := by
  induction l with
  | nil => rfl
  | cons kv rest ih => simp [decodeCommands, decodeString, ih]

theorem decodePRD_encode (p : PRD) : decodePRD p.toJson = some p := by
  rcases p with ⟨pn, desc, ca, stories, ql, fc⟩
  simp [PRD.toJson, decodePRD, Json.get?, lookupField, decodeString,
    decodeStories_encode, decodeQuality_encode, decodeCommands_encode]

/-! ### PRD file manager (`prd/manager.py`)

The state of the `prd.json` file is one of: missing, unreadable or malformed
JSON text, or a parsed JSON document (the text layer itself is external). -/

inductive FileState where
  | missing
  | malformed
  | jsonFile (j : Json)

/-- `PRDManager.exists`: the file is present. -/
def fileExists : FileState → Bool
  | .missing => false
  | _ => true

/-- `PRDManager.load`: returns an empty PRD when the file is missing, the JSON
is malformed, or schema validation fails; otherwise the parsed PRD. -/
def managerLoad : FileState → PRD
  | .missing => emptyPRD
  | .malformed => emptyPRD
  | .jsonFile j =>
      match decodePRD j with
      | some p => p
      | none => emptyPRD

/-- `PRDManager.save`: serializes the PRD and atomically replaces the file, so
the stored state becomes exactly the serialized document. -/
def managerSave (p : PRD) : FileState := .jsonFile p.toJson

/-- `PRDValidationError` carries a message and a list of violation strings. -/
structure PRDValidationErr where
  message : String
  errors : List String
deriving DecidableEq, Repr

/-- Detection of common wrong-schema patterns in `PRDManager.validate`: a
legacy `name` field instead of `project_name`, or `tasks` instead of
`stories`. -/
def wrongFieldErrs (j : Json) : List String :=
  (if j.hasKey "name" && !(j.hasKey "project_name") then
    ["Found field name but expected project_name"] else []) ++
  (if j.hasKey "tasks" && !(j.hasKey "stories") then
    ["Found field tasks but expected stories"] else [])

/-- `PRDManager.validate`: missing file and malformed JSON yield a single
error; otherwise the wrong-field-name checks and schema validation accumulate
errors (schema failure contributes at least one message, as pydantic reports
one entry per violation). -/
def validateFile : FileState → Bool × List String
  | .missing => (false, ["prd.json does not exist"])
  | .malformed => (false, ["Invalid JSON"])
  | .jsonFile j =>
      let errs :=
        wrongFieldErrs j ++
        (match decodePRD j with
         | some _ => []
         | none => ["schema validation failed"])
      (errs.isEmpty, errs)

/-- `PRDManager.load_strict`: raises `PRDValidationError` when the file is
absent or `validate` reports errors; otherwise returns `load()`. -/
def managerLoadStrict : FileState → Except PRDValidationErr PRD
  | .missing => .error { message := "prd.json does not exist", errors := [] }
  | fs =>
      let v := validateFile fs
      if v.1 then .ok (managerLoad fs)
      else .error { message := "PRD validation failed with " ++ toString v.2.length ++ " errors"
                  , errors := v.2 }

/-- C2: on a missing, malformed, or schema-invalid file state, `load` returns
the empty PRD (empty project name, zero stories) without failing, while
`load_strict` returns a validation error carrying at least one message. -/
theorem C2_defensive_load (fs : FileState)
    (h : fs = .missing ∨ fs = .malformed ∨ ∃ j, fs = .jsonFile j ∧ decodePRD j = none) :
    managerLoad fs = emptyPRD ∧ emptyPRD.project_name = "" ∧ emptyPRD.stories = [] ∧
    ∃ e, managerLoadStrict fs = .error e ∧ (e.message ≠ "" ∨ e.errors ≠ []) := by
  refine ⟨?_, rfl, rfl, ?_⟩
  · rcases h with h | h | ⟨j, hj, hdec⟩
    · rw [h]; rfl
    · rw [h]; rfl
    · rw [hj]
      simp [managerLoad, hdec]
  · rcases h with h | h | ⟨j, hj, hdec⟩
    · subst h
      exact ⟨_, rfl, Or.inl (by decide)⟩
    · subst h
      refine ⟨_, rfl, Or.inr (by decide)⟩
    · subst hj
      have hval : validateFile (.jsonFile j) =
          ((wrongFieldErrs j ++ ["schema validation failed"]).isEmpty,
            wrongFieldErrs j ++ ["schema validation failed"]) := by
        simp only [validateFile, hdec]
      have hne : wrongFieldErrs j ++ ["schema validation failed"] ≠ [] := by
        simp
      have hie : (wrongFieldErrs j ++ ["schema validation failed"]).isEmpty = false := by
        rcases wrongFieldErrs j with _ | ⟨a, as⟩ <;> rfl
      refine ⟨{ message := "PRD validation failed with " ++
                  toString (wrongFieldErrs j ++ ["schema validation failed"]).length ++
                  " errors"
              , errors := wrongFieldErrs j ++ ["schema validation failed"] }
            , ?_, Or.inr hne⟩
      show managerLoadStrict (.jsonFile j) = _
      simp only [managerLoadStrict, hval, hie]
      rfl

/-- Witness for C2 at the missing-file state. -/
theorem C2_defensive_load_witness :
    managerLoad .missing = emptyPRD ∧
    managerLoadStrict .missing =
      .error { message := "prd.json does not exist", errors := [] } :=
  ⟨(C2_defensive_load .missing (Or.inl rfl)).1, rfl⟩

/-- Saving then loading gives back the saved PRD (shared helper). -/
theorem load_save (p : PRD) : managerLoad (managerSave p) = p := by
  simp [managerSave, managerLoad, decodePRD_encode]

/-- C3: after `save(prd)`, a fresh `load()` on the same path returns a PRD
deep-equal to the one saved (round-trip law). -/
theorem C3_save_load_roundtrip (p : PRD) : managerLoad (managerSave p) = p :=
  load_save p

/-- Scan of the story list in id order: flips the `passes` flag of the first
story carrying the requested id if it is not yet complete; reports whether a
flag was flipped. -/
def markStoryComplete : List UserStory → Int → Bool × List UserStory
  | [], _ => (false, [])
  | s :: rest, i =>
      if s.id = i then
        if s.passes then (false, s :: rest)
        else (true, { s with passes := true } :: rest)
      else
        let r := markStoryComplete rest i
        (r.1, s :: r.2)

/-- Modelled from the spec: `PRD.mark_story_complete` marks the story with the
given id complete, returning false if the id is absent or the story already
complete; `prd/schema.py` is missing. -/
def PRD.mark_story_complete (p : PRD) (i : Int) : Bool × PRD :=
  let r := markStoryComplete p.stories i
  (r.1, { p with stories := r.2 })

/-- `PRDManager.mark_complete`: loads the stored PRD, attempts to mark the
story complete, and saves only when a flag was actually flipped. -/
def managerMarkComplete (fs : FileState) (i : Int) : Bool × FileState :=
  let r := (managerLoad fs).mark_story_complete i
  if r.1 then (true, managerSave r.2) else (false, fs)

theorem markStoryComplete_absent (l : List UserStory) (i : Int)
    (h : ∀ s ∈ l, s.id ≠ i) : markStoryComplete l i = (false, l) := by
  induction l with
  | nil => rfl
  | cons s rest ih =>
      have hs : s.id ≠ i := h s (List.mem_cons_self s rest)
      simp [markStoryComplete, hs,
        ih (fun t ht => h t (List.mem_cons_of_mem s ht))]

theorem markStoryComplete_found (l : List UserStory) (i : Int)
    (hnd : (l.map (·.id)).Nodup) :
    ∀ s ∈ l, s.id = i → s.passes = false → (markStoryComplete l i).1 = true := by
  induction l with
  | nil =>
      intro s hs
      exact absurd hs (List.not_mem_nil s)
  | cons a rest ih =>
      intro s hs hid hp
      rw [List.map_cons, List.nodup_cons] at hnd
      rcases List.mem_cons.mp hs with h1 | h1
      · subst h1
        simp [markStoryComplete, hid, hp]
      · by_cases ha : a.id = i
        · exact absurd (by rw [ha, ← hid]; exact List.mem_map_of_mem _ h1) hnd.1
        · simpa [markStoryComplete, ha] using ih hnd.2 s h1 hid hp

theorem markStoryComplete_twice (l : List UserStory) (i : Int)
    (h : (markStoryComplete l i).1 = true) :
    markStoryComplete (markStoryComplete l i).2 i =
      (false, (markStoryComplete l i).2) := by
  induction l with
  | nil => simp [markStoryComplete] at h
  | cons a rest ih =>
      by_cases ha : a.id = i
      · by_cases hp : a.passes
        · simp [markStoryComplete, ha, hp] at h
        · simp [markStoryComplete, ha, hp]
      · simp only [markStoryComplete, ha, if_false, if_neg ha] at h ⊢
        rw [ih h]

/-- C4: with pairwise-distinct story ids, the first `mark_complete(i)` on a
stored PRD containing an incomplete story with id `i` returns true, a second
call returns false leaving the stored file unchanged; for an absent id,
`mark_complete` returns false and leaves the stored file unchanged. -/
theorem C4_mark_complete_idempotent (fs : FileState) (i : Int)
    (hnd : ((managerLoad fs).stories.map (·.id)).Nodup) :
    (∀ s ∈ (managerLoad fs).stories, s.id = i → s.passes = false →
      (managerMarkComplete fs i).1 = true ∧
      managerMarkComplete (managerMarkComplete fs i).2 i =
        (false, (managerMarkComplete fs i).2)) ∧
    ((∀ s ∈ (managerLoad fs).stories, s.id ≠ i) →
      managerMarkComplete fs i = (false, fs)) := by
  constructor
  · intro s hs hid hp
    have h1 := markStoryComplete_found _ i hnd s hs hid hp
    have hfirst : managerMarkComplete fs i =
        (true, managerSave { managerLoad fs with
          stories := (markStoryComplete (managerLoad fs).stories i).2 }) := by
      simp [managerMarkComplete, PRD.mark_story_complete, h1]
    have htwice := markStoryComplete_twice (managerLoad fs).stories i h1
    refine ⟨by rw [hfirst], ?_⟩
    rw [hfirst]
    simp [managerMarkComplete, PRD.mark_story_complete, load_save, htwice]
  · intro h
    have habs := markStoryComplete_absent (managerLoad fs).stories i h
    simp [managerMarkComplete, PRD.mark_story_complete, habs]

/-- A stored one-story PRD used as evaluation input for C4. -/
def prdB : PRD :=
  { project_name := "B", description := "", created_at := ""
  , stories := [ { id := 1, title := "Only", description := ""
                 , acceptance_criteria := [], priority := 1
                 , passes := false, notes := none } ]
  , quality_level := .prototype, feedback_commands := [] }

def fsB : FileState := managerSave prdB

/-- Witness for C4 at a concrete stored PRD with one incomplete story. -/
theorem C4_mark_complete_idempotent_witness :
    (managerMarkComplete fsB 1).1 = true ∧
    managerMarkComplete (managerMarkComplete fsB 1).2 1 =
      (false, (managerMarkComplete fsB 1).2) :=
  (C4_mark_complete_idempotent fsB 1
      (by show ((managerLoad (managerSave prdB)).stories.map (·.id)).Nodup
          rw [load_save]
          decide)).1
    { id := 1, title := "Only", description := "", acceptance_criteria := []
    , priority := 1, passes := false, notes := none }
    (by show _ ∈ (managerLoad (managerSave prdB)).stories
        rw [load_save]
        decide)
    rfl rfl

/-! ### Circuit breaker

The circuit-breaker module is not part of the excerpt; everything here is
modelled from §4.3 of the specification. -/

inductive BreakerState where
  | CLOSED
  | HALF_OPEN
  | OPEN
deriving DecidableEq, Repr

structure CircuitBreaker where
  state : BreakerState
  consecutive_no_progress : Nat
  consecutive_same_error : Nat
  reason : String
deriving DecidableEq, Repr

def NO_PROGRESS_THRESHOLD : Nat := 3

def SAME_ERROR_THRESHOLD : Nat := 3

/-- Modelled from the spec: `can_execute` is false iff the breaker state is
OPEN; the circuit-breaker module is missing from the excerpt. -/
def CircuitBreaker.can_execute (cb : CircuitBreaker) : Bool :=
  !(cb.state == .OPEN)

/-- Modelled from the spec: `record_loop_result` increments the consecutive
no-progress counter when `files_changed = 0` and resets it otherwise,
increments the consecutive same-error counter when an error repeats with no
file changes and resets it otherwise, and moves to OPEN recording a reason
when either counter reaches its threshold of 3; the circuit-breaker module is
missing from the excerpt. -/
def CircuitBreaker.record_loop_result (cb : CircuitBreaker)
    (loop_number files_changed : Nat) (has_errors : Bool)
    (output_length : Nat) : CircuitBreaker :=
  let np := if files_changed = 0 then cb.consecutive_no_progress + 1 else 0
  let se := if has_errors && decide (files_changed = 0) then
              cb.consecutive_same_error + 1 else 0
  if NO_PROGRESS_THRESHOLD ≤ np then
    { cb with
        state := .OPEN
        consecutive_no_progress := np
        consecutive_same_error := se
        reason := "No progress for " ++ toString np ++ " consecutive loops" }
  else if SAME_ERROR_THRESHOLD ≤ se then
    { cb with
        state := .OPEN
        consecutive_no_progress := np
        consecutive_same_error := se
        reason := "Same error repeated " ++ toString se ++ " times" }
  else
    { cb with consecutive_no_progress := np, consecutive_same_error := se }

/-- Modelled from the spec: `reset(reason)` unconditionally sets the state to
CLOSED, zeroes both counters and records the reason; the circuit-breaker
module is missing from the excerpt. -/
def CircuitBreaker.reset (cb : CircuitBreaker) (reason : String) : CircuitBreaker :=
  { state := .CLOSED, consecutive_no_progress := 0
  , consecutive_same_error := 0, reason := reason }

theorem record_noProgress_counter (cb : CircuitBreaker) (n : Nat) (e : Bool) (o : Nat) :
    (cb.record_loop_result n 0 e o).consecutive_no_progress =
      cb.consecutive_no_progress + 1 := by
  simp only [CircuitBreaker.record_loop_result, reduceIte]
  (repeat' split) <;> rfl

theorem record_opens (cb : CircuitBreaker) (n : Nat) (e : Bool) (o : Nat)
    (h : 2 ≤ cb.consecutive_no_progress) :
    (cb.record_loop_result n 0 e o).state = .OPEN := by
  simp only [CircuitBreaker.record_loop_result, NO_PROGRESS_THRESHOLD, reduceIte]
  rw [if_pos (by omega)]

/-- C5: three consecutive `record_loop_result` calls with zero files changed
take any breaker to a state where `can_execute` is false, and `reset(reason)`
returns any breaker to CLOSED with both counters zeroed and `can_execute`
true. -/
theorem C5_breaker_open_and_reset (cb : CircuitBreaker) :
    (∀ (n1 n2 n3 o1 o2 o3 : Nat) (e1 e2 e3 : Bool),
      (((cb.record_loop_result n1 0 e1 o1).record_loop_result n2 0 e2 o2).record_loop_result
          n3 0 e3 o3).can_execute = false) ∧
    (∀ r, cb.reset r =
        { state := .CLOSED, consecutive_no_progress := 0
        , consecutive_same_error := 0, reason := r } ∧
      (cb.reset r).can_execute = true) := by
  constructor
  · intro n1 n2 n3 o1 o2 o3 e1 e2 e3
    have h2 : ((cb.record_loop_result n1 0 e1 o1).record_loop_result
        n2 0 e2 o2).consecutive_no_progress = cb.consecutive_no_progress + 2 := by
      rw [record_noProgress_counter, record_noProgress_counter]
    have hop := record_opens
      ((cb.record_loop_result n1 0 e1 o1).record_loop_result n2 0 e2 o2)
      n3 e3 o3 (by omega)
    simp [CircuitBreaker.can_execute, hop]
  · intro r
    exact ⟨rfl, rfl⟩

/-! ### Ralph session state

The `state/` module (`StateManager`, `RalphState`, `LoopResult`) is not part
of the excerpt; definitions are modelled from §3, §4.2 and §6 of the
specification. Timestamps are abstract strings supplied by the caller. -/

inductive LoopStatus where
  | RUNNING
  | PAUSED
  | HALTED
  | COMPLETED
deriving DecidableEq, Repr

inductive TestsStatus where
  | PASSING
  | FAILING
  | NOT_RUN
deriving DecidableEq, Repr

inductive WorkType where
  | IMPLEMENTATION
  | TESTING
  | DOCUMENTATION
  | REFACTORING
deriving DecidableEq, Repr

/-- Modelled from the spec: the structured outcome of analyzing one LLM
response; the state module is missing from the excerpt. -/
structure LoopResult where
  loop_number : Nat
  error_count : Nat
  files_modified : Nat
  tests_status : TestsStatus
  work_type : WorkType
  is_stuck : Bool
  current_story_complete : Bool
  has_completion_signal : Bool
  recommendation : String
deriving DecidableEq, Repr

/-- Modelled from the spec: the loop-control session record per the §6 state
layout; the state module is missing from the excerpt. -/
structure RalphState where
  status : LoopStatus
  current_loop : Nat
  max_loops : Nat
  session_id : String
  started_at : String
  updated_at : String
  exit_reason : String
  consecutive_test_only : Nat
  consecutive_done_signals : Nat
  consecutive_no_progress : Nat
  recent_results : List LoopResult
deriving DecidableEq, Repr

/-- Bounded retention capacity of `recent_results` (a tunable, fixed here). -/
def RECENT_RESULTS_CAP : Nat := 5

/-- Modelled from the spec: `start_session` initializes a fresh state with
status RUNNING, loop counter 0, a new session id and the current timestamp;
the state module is missing from the excerpt. -/
def startSession (project_name : String) (max_loops : Nat) (sid now : String) : RalphState :=
  { status := .RUNNING, current_loop := 0, max_loops := max_loops
  , session_id := sid, started_at := now, updated_at := now, exit_reason := ""
  , consecutive_test_only := 0, consecutive_done_signals := 0
  , consecutive_no_progress := 0, recent_results := [] }

/-- Modelled from the spec: `update(loop_result)` appends to the bounded
recent-results list, increments the loop counter and updates the consecutive
counters from the result's classification; the state module is missing from
the excerpt. -/
def RalphState.update (st : RalphState) (r : LoopResult) : RalphState :=
  let rr := st.recent_results ++ [r]
  { st with
      current_loop := st.current_loop + 1
      recent_results := rr.drop (rr.length - RECENT_RESULTS_CAP)
      consecutive_no_progress :=
        if r.files_modified = 0 && !r.has_completion_signal then
          st.consecutive_no_progress + 1 else 0
      consecutive_test_only :=
        if r.work_type == .TESTING then st.consecutive_test_only + 1 else 0
      consecutive_done_signals :=
        if r.has_completion_signal then st.consecutive_done_signals + 1 else 0 }

def NO_PROGRESS_EXIT_THRESHOLD : Nat := 3

/-- Modelled from the spec: `should_exit` is true when the loop counter
reached the ceiling, the no-progress streak crossed its threshold, or a
completion signal was recorded; the state module is missing from the
excerpt. -/
def RalphState.should_exit (st : RalphState) : Bool × String :=
  if st.max_loops ≤ st.current_loop then (true, "Maximum loops reached")
  else if NO_PROGRESS_EXIT_THRESHOLD ≤ st.consecutive_no_progress then
    (true, "No progress detected")
  else if 1 ≤ st.consecutive_done_signals then (true, "Completion signal received")
  else (false, "")

/-- Modelled from the spec: `end_session(reason, status)` sets the terminal
status and exit reason without deleting the record; the state module is
missing from the excerpt. -/
def RalphState.end_session (st : RalphState) (reason : String)
    (status : LoopStatus) : RalphState :=
  { st with status := status, exit_reason := reason }

/-- Modelled from the spec: `StateManager.is_running` on an optionally present
state file; the state module is missing from the excerpt. -/
def isRunningState (st : Option RalphState) : Bool :=
  match st with
  | some s => s.status == .RUNNING
  | none => false

/-! ### Response analyzer (external collaborator)

`ResponseAnalyzer` is declared an external collaborator by the spec and its
module is not in the excerpt; only the shape of its result is needed. -/

/-- Modelled from the spec: the analyzer's structured view of one response;
the analysis module is missing from the excerpt. -/
structure Analysis where
  loop_number : Nat
  error_count : Nat
  files_modified : Nat
  tests_status : TestsStatus
  work_type : WorkType
  is_stuck : Bool
  current_story_complete : Bool
  exit_signal : Bool
  has_completion_signal : Bool
  recommendation : String
  confidence_score : Nat
deriving DecidableEq, Repr

/-- Modelled from the spec: `analysis.to_loop_result()`; the analysis module
is missing from the excerpt. -/
def Analysis.to_loop_result (a : Analysis) : LoopResult :=
  { loop_number := a.loop_number, error_count := a.error_count
  , files_modified := a.files_modified, tests_status := a.tests_status
  , work_type := a.work_type, is_stuck := a.is_stuck
  , current_story_complete := a.current_story_complete
  , has_completion_signal := a.has_completion_signal
  , recommendation := a.recommendation }

/-! ### Loop runner (`engine/runner.py`, `engine/prompt_augmenter.py`) -/

/-- Modelled from the spec: `progress_summary` renders completed vs total
story counts; `prd/schema.py` is missing. -/
def PRD.progress_summary (p : PRD) : String :=
  toString (p.stories.filter (·.passes)).length ++ "/" ++
    toString p.stories.length ++ " stories complete"

/-- Modelled from the spec: `total_count` is the number of stories;
`prd/schema.py` is missing. -/
def PRD.total_count (p : PRD) : Nat := p.stories.length

def breakerStateName : BreakerState → String
  | .CLOSED => "CLOSED"
  | .HALF_OPEN => "HALF_OPEN"
  | .OPEN => "OPEN"

/-- The fixed status-block instruction envelope appended to every prompt
(`RALPH_STATUS_INSTRUCTIONS` in `engine/prompt_augmenter.py`, abridged to its
marker lines). -/
def RALPH_STATUS_INSTRUCTIONS : String :=
  "\n## RALPH STATUS REPORTING (CRITICAL)\n\nAt the END of your response, you MUST include this status block:\n\n---RALPH_STATUS---\nSTATUS: IN_PROGRESS | COMPLETE | BLOCKED\nTASKS_COMPLETED_THIS_LOOP: <number>\nFILES_MODIFIED: <number>\nTESTS_STATUS: PASSING | FAILING | NOT_RUN\nWORK_TYPE: IMPLEMENTATION | TESTING | DOCUMENTATION | REFACTORING\nEXIT_SIGNAL: false | true\nRECOMMENDATION: <one-line summary of what to do next>\n---END_RALPH_STATUS---\n"

/-- `build_ralph_prompt` from `engine/prompt_augmenter.py`: context header,
optional PRD context, optional current story with acceptance criteria, the
user prompt, then the status-block instructions, joined by newlines. -/
def build_ralph_prompt (user_prompt : String) (prd : Option PRD)
    (current_story : Option UserStory) (loop_number : Nat)
    (circuit_state : String) : String :=
  let parts : List String :=
    ["# Ralph Loop #" ++ toString loop_number
    , "Circuit Breaker: " ++ circuit_state, ""]
    ++ (match prd with
        | some p => ["## Project Context", "Project: " ++ p.project_name
                    , "Progress: " ++ p.progress_summary, ""]
        | none => [])
    ++ (match current_story with
        | some s =>
            ["## Current Task"
            , "Story #" ++ toString s.id ++ ": " ++ s.title
            , "Description: " ++ s.description]
            ++ (if s.acceptance_criteria.isEmpty then []
                else "Acceptance Criteria:" ::
                  s.acceptance_criteria.map (fun c => "  - " ++ c))
            ++ [""]
        | none => [])
    ++ ["## Your Task", user_prompt, ""]
    ++ [RALPH_STATUS_INSTRUCTIONS]
  String.intercalate "\n" parts

abbrev ResumeToken := String

/-- Events observable from one `run_impl` call (inner events are forwarded
opaquely; the error completion and the telemetry action are Ralph's own). -/
inductive RalphEvent where
  | completedError (error : String) (resume : Option ResumeToken)
  | innerEv (payload : String)
  | actionCompleted (action_id kind title : String) (ok : Bool)
deriving DecidableEq, Repr

/-- Result of one inner-runner execution: its forwarded events, the final
answer captured from its completion event, and its resume token. -/
structure InnerResult where
  events : List RalphEvent
  answer : String
  resume : Option ResumeToken

/-- The three persistent stores owned by one Ralph project directory. -/
structure RalphWorld where
  prdFile : FileState
  ralphState : RalphState
  breaker : CircuitBreaker

/-- Observable outcome of one `run_impl` call: emitted events, the trace of
delegations to the inner engine (prompt and resume token passed), and the
final store state. -/
structure RunOutput where
  events : List RalphEvent
  innerCalls : List (String × Option ResumeToken)
  world : RalphWorld

/-- `RalphRunner.run_impl` from `engine/runner.py`: check the breaker, load
state and PRD, build the augmented prompt, delegate to the inner runner with
a fresh session, analyze the answer, update breaker / PRD / state, and end
the session when an exit condition holds. The inner engine and the response
analyzer are external collaborators passed as functions. -/
def runImpl (inner : String → Option ResumeToken → InnerResult)
    (analyze : String → Nat → Analysis)
    (w : RalphWorld) (prompt : String) (resume : Option ResumeToken) : RunOutput :=
  if w.breaker.can_execute = false then
    { events := [.completedError ("Circuit breaker is OPEN: " ++ w.breaker.reason) resume]
    , innerCalls := []
    , world := w }
  else
    let loop_number := w.ralphState.current_loop + 1
    let circuit_state := breakerStateName w.breaker.state
    let prd : Option PRD :=
      if fileExists w.prdFile then some (managerLoad w.prdFile) else none
    let current_story := prd.bind PRD.next_story
    let augmented := build_ralph_prompt prompt prd current_story loop_number circuit_state
    let res := inner augmented none
    let analysis := analyze res.answer loop_number
    let breaker1 := w.breaker.record_loop_result loop_number analysis.files_modified
      analysis.is_stuck res.answer.length
    let prdFile1 :=
      match current_story with
      | some st =>
          if analysis.current_story_complete then
            (managerMarkComplete w.prdFile st.id).2
          else w.prdFile
      | none => w.prdFile
    let state1 := w.ralphState.update analysis.to_loop_result
    let ex := state1.should_exit
    let state2 :=
      if ex.1 || analysis.exit_signal then
        state1.end_session (if ex.2 = "" then "Exit signal received" else ex.2) .COMPLETED
      else state1
    let telemetry :=
      match res.resume with
      | some _ =>
          [RalphEvent.actionCompleted ("ralph.analysis." ++ toString loop_number)
            "telemetry" ("Loop #" ++ toString loop_number ++ " analysis")
            (!analysis.is_stuck)]
      | none => []
    { events := res.events ++ telemetry
    , innerCalls := [(augmented, none)]
    , world := { prdFile := prdFile1, ralphState := state2, breaker := breaker1 } }

/-- C6: when the breaker blocks execution, `run_impl` emits exactly one error
completion citing the breaker's recorded reason, never calls the inner
engine, and leaves the PRD file, the Ralph state and the breaker unchanged. -/
theorem C6_breaker_open_no_mutation
    (inner : String → Option ResumeToken → InnerResult)
    (analyze : String → Nat → Analysis)
    (w : RalphWorld) (prompt : String) (resume : Option ResumeToken)
    (h : w.breaker.can_execute = false) :
    runImpl inner analyze w prompt resume =
      { events := [.completedError ("Circuit breaker is OPEN: " ++ w.breaker.reason) resume]
      , innerCalls := []
      , world := w } := by
  simp [runImpl, h]

/-- An OPEN breaker as it results from three no-progress loops. -/
def cbOpen : CircuitBreaker :=
  { state := .OPEN, consecutive_no_progress := 3, consecutive_same_error := 0
  , reason := "No progress for 3 consecutive loops" }

def cbClosed : CircuitBreaker :=
  { state := .CLOSED, consecutive_no_progress := 0, consecutive_same_error := 0
  , reason := "" }

def stateR : RalphState :=
  { status := .RUNNING, current_loop := 0, max_loops := 100, session_id := "s1"
  , started_at := "t0", updated_at := "t0", exit_reason := ""
  , consecutive_test_only := 0, consecutive_done_signals := 0
  , consecutive_no_progress := 0, recent_results := [] }

def wOpen : RalphWorld :=
  { prdFile := fsB, ralphState := stateR, breaker := cbOpen }

def innerNop : String → Option ResumeToken → InnerResult :=
  fun _ _ => { events := [], answer := "", resume := none }

def analyzeNop : String → Nat → Analysis :=
  fun _ n =>
    { loop_number := n, error_count := 0, files_modified := 0
    , tests_status := .NOT_RUN, work_type := .IMPLEMENTATION, is_stuck := false
    , current_story_complete := false, exit_signal := false
    , has_completion_signal := false, recommendation := ""
    , confidence_score := 0 }

/-- Witness for C6 at a concrete open breaker. -/
theorem C6_breaker_open_no_mutation_witness :
    (runImpl innerNop analyzeNop wOpen "go" none).innerCalls = [] ∧
    (runImpl innerNop analyzeNop wOpen "go" none).events =
      [.completedError "Circuit breaker is OPEN: No progress for 3 consecutive loops" none] := by
  have h := C6_breaker_open_no_mutation innerNop analyzeNop wOpen "go" none rfl
  rw [h]
  exact ⟨rfl, rfl⟩

/-- C8: every delegation `run_impl` makes to the inner engine passes a null
resume token, whatever resume token the caller supplied. -/
theorem C8_fresh_inner_session
    (inner : String → Option ResumeToken → InnerResult)
    (analyze : String → Nat → Analysis)
    (w : RalphWorld) (prompt : String) (resume : Option ResumeToken) :
    ((runImpl inner analyze w prompt resume).innerCalls.all
      fun c => c.2 == none) = true := by
  by_cases h : w.breaker.can_execute = false
  · simp [runImpl, h]
  · simp [runImpl, h]

/-! ### Start handler (`command/handlers/start.py`) -/

def MAX_ITERATIONS_PER_START : Nat := 50

/-- How a `/ralph start` command begins, before the iteration loop. -/
inductive StartDecision where
  | alreadyRunning (label : String)
  | breakerOpen (reason : String)
  | noPrd (label : String)
  | allComplete (total : Nat)
  | proceed (resuming : Bool) (st : RalphState)
deriving DecidableEq, Repr

/-- The pre-loop part of `handle_start` (lines 25-77): refuse when a loop is
already running, the breaker is open, `prd.json` is absent, or every story is
complete; otherwise either flip the PAUSED state back to RUNNING in place
(clearing the exit reason) or start a fresh session. The fresh session id and
timestamp are supplied by the environment as parameters. -/
def handleStartBegin (current_state : Option RalphState) (cb : CircuitBreaker)
    (prdFile : FileState) (label sid now : String) : StartDecision :=
  let is_resuming : Bool :=
    match current_state with
    | some st => st.status == .PAUSED
    | none => false
  if isRunningState current_state then .alreadyRunning label
  else if !cb.can_execute then .breakerOpen cb.reason
  else if !(fileExists prdFile) then .noPrd label
  else
    let prd := managerLoad prdFile
    if prd.all_complete then .allComplete prd.total_count
    else if is_resuming then
      match current_state with
      | some st => .proceed true { st with status := .RUNNING, exit_reason := "" }
      | none =>
          .proceed false (startSession
            (if prd.project_name = "" then label else prd.project_name) 100 sid now)
    else
      .proceed false (startSession
        (if prd.project_name = "" then label else prd.project_name) 100 sid now)

/-- C7: when the existing state is PAUSED (and the start guards pass), the
handler flips it back to RUNNING in place, clearing the exit reason and
preserving the session id and loop counter; when the existing state is not
PAUSED (and not RUNNING, in which case no start happens at all), a fresh
session is constructed via `start_session`. -/
theorem C7_resume_semantics (st : RalphState) (cb : CircuitBreaker)
    (prdFile : FileState) (label sid now : String)
    (hcb : cb.can_execute = true) (hex : fileExists prdFile = true)
    (hnc : (managerLoad prdFile).all_complete = false) :
    (st.status = .PAUSED →
      handleStartBegin (some st) cb prdFile label sid now =
        .proceed true { st with status := .RUNNING, exit_reason := "" } ∧
      ({ st with status := .RUNNING, exit_reason := "" } : RalphState).session_id =
        st.session_id ∧
      ({ st with status := .RUNNING, exit_reason := "" } : RalphState).current_loop =
        st.current_loop) ∧
    (st.status ≠ .PAUSED → st.status ≠ .RUNNING →
      handleStartBegin (some st) cb prdFile label sid now =
        .proceed false (startSession
          (if (managerLoad prdFile).project_name = "" then label
           else (managerLoad prdFile).project_name) 100 sid now)) := by
  constructor
  · intro hst
    refine ⟨?_, rfl, rfl⟩
    have hrun : isRunningState (some st) = false := by
      simp [isRunningState, hst]
    simp [handleStartBegin, hrun, hcb, hex, hnc, hst]
  · intro hp hr
    have hrun : isRunningState (some st) = false := by
      show (st.status == LoopStatus.RUNNING) = false
      cases h : st.status <;> first | rfl | exact absurd h hr
    have hps : (st.status == LoopStatus.PAUSED) = false := by
      cases h : st.status <;> first | rfl | exact absurd h hp
    simp [handleStartBegin, hrun, hcb, hex, hnc, hps]

/-- A PAUSED session state used as evaluation input. -/
def statePaused : RalphState :=
  { stateR with
      status := .PAUSED
      current_loop := 7
      session_id := "sess-7"
      exit_reason := "Paused after 50 iterations (safety limit)" }

/-- Witness for C7 at a concrete PAUSED state. -/
theorem C7_resume_semantics_witness :
    handleStartBegin (some statePaused) cbClosed fsB "L" "sid" "t1" =
      .proceed true { statePaused with status := .RUNNING, exit_reason := "" } :=
  ((C7_resume_semantics statePaused cbClosed fsB "L" "sid" "t1" rfl rfl
      (by show (managerLoad (managerSave prdB)).all_complete = false
          rw [load_save]
          decide)).1 rfl).1

/-- Outcome of the `handle_start` iteration loop. -/
inductive StartOutcome where
  | halted (reason : String)
  | completedRun (reason : String)
  | allDone (total : Nat)
  | paused
deriving DecidableEq, Repr

def PAUSE_REASON : String :=
  "Paused after " ++ toString MAX_ITERATIONS_PER_START ++ " iterations (safety limit)"

/-- The `while iteration < MAX_ITERATIONS_PER_START` loop of `handle_start`
(lines 103-230): `fuel` counts the iterations still allowed and `step` is the
effect of `executor.run_one` dispatching one Ralph iteration (chat messages
are observational I/O, not state). Returns the outcome, the final stores and
the number of iterations executed; exhausting the allowance marks the state
PAUSED with the safety-limit reason. -/
def startLoop (step : RalphWorld → RalphWorld) :
    Nat → Nat → RalphWorld → StartOutcome × RalphWorld × Nat
  | 0, iteration, w =>
      (.paused,
        { w with ralphState :=
            { w.ralphState with status := .PAUSED, exit_reason := PAUSE_REASON } },
        iteration)
  | fuel + 1, iteration, w =>
      let it := iteration + 1
      if w.breaker.can_execute = false then
        (.halted w.breaker.reason,
          { w with ralphState :=
              (w.ralphState.end_session
                ("Circuit breaker opened: " ++ w.breaker.reason) .HALTED) },
          it)
      else if !(w.ralphState.status == .RUNNING) then
        (.completedRun w.ralphState.exit_reason, w, it)
      else
        let w1 := step w
        if !(w1.ralphState.status == .RUNNING) then
          (.completedRun w1.ralphState.exit_reason, w1, it)
        else
          let prd := managerLoad w1.prdFile
          if prd.all_complete then
            (.allDone prd.total_count,
              { w1 with ralphState :=
                  (w1.ralphState.end_session "All stories complete" .COMPLETED) },
              it)
          else
            startLoop step fuel it w1

def handleStartLoop (step : RalphWorld → RalphWorld) (w : RalphWorld) :
    StartOutcome × RalphWorld × Nat :=
  startLoop step MAX_ITERATIONS_PER_START 0 w

theorem startLoop_spec (step : RalphWorld → RalphWorld) :
    ∀ (fuel it : Nat) (w : RalphWorld) (out : StartOutcome) (w2 : RalphWorld) (n : Nat),
      startLoop step fuel it w = (out, w2, n) →
      n ≤ it + fuel ∧
      (out = .paused →
        w2.ralphState.status = .PAUSED ∧ w2.ralphState.exit_reason = PAUSE_REASON) := by
  intro fuel
  induction fuel with
  | zero =>
      intro it w out w2 n h
      simp only [startLoop] at h
      injection h with h1 h2
      injection h2 with h2 h3
      subst h1; subst h2; subst h3
      exact ⟨Nat.le_add_right it 0, fun _ => ⟨rfl, rfl⟩⟩
  | succ f ih =>
      intro it w out w2 n h
      simp only [startLoop] at h
      split at h
      · injection h with h1 h2
        injection h2 with h2 h3
        subst h1; subst h2; subst h3
        exact ⟨by omega, fun hc => by simp at hc⟩
      · split at h
        · injection h with h1 h2
          injection h2 with h2 h3
          subst h1; subst h2; subst h3
          exact ⟨by omega, fun hc => by simp at hc⟩
        · split at h
          · injection h with h1 h2
            injection h2 with h2 h3
            subst h1; subst h2; subst h3
            exact ⟨by omega, fun hc => by simp at hc⟩
          · split at h
            · injection h with h1 h2
              injection h2 with h2 h3
              subst h1; subst h2; subst h3
              exact ⟨by omega, fun hc => by simp at hc⟩
            · have hrec := ih (it + 1) (step w) out w2 n h
              exact ⟨by omega, hrec.2⟩

/-- C9: the `handle_start` loop executes at most `MAX_ITERATIONS_PER_START`
(50) iterations, and when the allowance is exhausted without an earlier exit
the session state is set to PAUSED with the safety-limit exit reason, keeping
it resumable. -/
theorem C9_iteration_ceiling (step : RalphWorld → RalphWorld) (w : RalphWorld) :
    (handleStartLoop step w).2.2 ≤ MAX_ITERATIONS_PER_START ∧
    ((handleStartLoop step w).1 = .paused →
      (handleStartLoop step w).2.1.ralphState.status = .PAUSED ∧
      (handleStartLoop step w).2.1.ralphState.exit_reason = PAUSE_REASON) := by
  have h := startLoop_spec step MAX_ITERATIONS_PER_START 0 w
    (handleStartLoop step w).1 (handleStartLoop step w).2.1
    (handleStartLoop step w).2.2 rfl
  exact ⟨by simpa using h.1, h.2⟩

def wRun : RalphWorld :=
  { prdFile := fsB, ralphState := stateR, breaker := cbClosed }

/-- Witness for C9: with an inert iteration effect the loop runs its full
allowance and pauses. -/
theorem C9_iteration_ceiling_witness :
    (handleStartLoop id wRun).1 = .paused ∧
    (handleStartLoop id wRun).2.1.ralphState.status = .PAUSED :=
  ⟨by decide, ((C9_iteration_ceiling id wRun).2 (by decide)).1⟩

/-! ### PRD enhancement from a clarify session (`clarify/prd_builder.py`) -/

/-- A clarify session as consumed by the PRD builder: its topic and the
answers recorded by question key (`clarify/flow.py`). -/
structure ClarifySession where
  id : String
  topic : String
  answers : List (String × String)
  mode : String
  is_complete : Bool

/-- `answers.get(key, "")`: dictionary lookup with empty-string default. -/
def answersGet : List (String × String) → String → String
  | [], _ => ""
  | (k, v) :: rest, key => if k = key then v else answersGet rest key

/-- ASCII lowercasing of a string (Python `str.lower` as used on story
titles), defined over the character list so it evaluates by `decide`. -/
def strToLower (s : String) : String := String.mk (s.data.map Char.toLower)

def startsWithChars : List Char → List Char → Bool
  | [], _ => true
  | _ :: _, [] => false
  | p :: ps, c :: cs => (p == c) && startsWithChars ps cs

def containsChars : List Char → List Char → Bool
  | [], pat => pat.isEmpty
  | c :: rest, pat => startsWithChars pat (c :: rest) || containsChars rest pat

/-- Python `pat in s` substring test. -/
def strContains (s pat : String) : Bool := containsChars s.data pat.data

/-- The candidate stories of `enhance_prd_from_session`, in source order,
with their answer-based guards evaluated: authentication, testing, error
handling, external integrations, extended features. -/
def enhanceCandidates (existing_prd : PRD) (session : ClarifySession) :
    List (String × String × List String) :=
  let answers := session.answers
  let auth_method := answersGet answers "auth_method"
  let testing_level := answersGet answers "testing_level"
  let error_handling := answersGet answers "error_handling"
  let external_apis := answersGet answers "external_apis"
  let mvp_scope := answersGet answers "mvp_scope"
  (if auth_method != "" && auth_method != "None needed" then
    [("User Authentication", "Implement " ++ auth_method ++ " authentication",
      ["Users can sign up", "Users can log in", "Sessions are secure",
       "Logout works correctly"])]
   else []) ++
  (if testing_level != "" && testing_level != "Minimal" then
    [("Testing Implementation", "Add " ++ testing_level,
      ["Tests for core functionality", "All tests passing",
       "Test coverage meets requirements"])]
   else []) ++
  (if error_handling != "" &&
      (strContains error_handling "All" || strContains error_handling "Comprehensive") then
    [("Error Handling", "Implement comprehensive error handling",
      ["User-friendly error messages", "Errors are logged",
       "No unhandled exceptions"])]
   else []) ++
  (if external_apis != "" && external_apis != "None" then
    [("External Integrations", "Integrate with: " ++ external_apis,
      ["API connections established", "Error handling for API failures",
       "Proper authentication with external services"])]
   else []) ++
  (if mvp_scope == "Full feature set" then
    [("Extended Features",
      "Implement additional features for " ++ existing_prd.project_name,
      ["Extended feature set complete", "All user flows working",
       "Performance optimized"])]
   else [])

/-- The `add_story` accumulation inside `enhance_prd_from_session`: appends
each candidate whose lowercased title is not among the existing lowercased
titles, assigning consecutive ids and priorities from the running counters. -/
def addStories (existing_titles : List String) :
    Int → Int → List (String × String × List String) → List UserStory
  | _, _, [] => []
  | nid, np, (title, descr, criteria) :: rest =>
      if existing_titles.contains (strToLower title) then
        addStories existing_titles nid np rest
      else
        { id := nid, title := title, description := descr
        , acceptance_criteria := criteria, priority := np
        , passes := false, notes := none } ::
          addStories existing_titles (nid + 1) (np + 1) rest

/-- Python `max(iterable, default=0)`. -/
def maxOr0 : List Int → Int
  | [] => 0
  | x :: xs => xs.foldl max x

/-- `enhance_prd_from_session` from `clarify/prd_builder.py`: adds new
stories derived from the session answers to the existing PRD, skipping
candidates whose lowercased title already occurs, with ids and priorities
continuing past the existing maxima. -/
def enhance_prd_from_session (existing_prd : PRD) (session : ClarifySession) : PRD :=
  let existing_titles := existing_prd.stories.map (fun s => strToLower s.title)
  let next_id := maxOr0 (existing_prd.stories.map (·.id)) + 1
  let next_priority := maxOr0 (existing_prd.stories.map (·.priority)) + 1
  let new_stories := addStories existing_titles next_id next_priority
    (enhanceCandidates existing_prd session)
  { existing_prd with stories := existing_prd.stories ++ new_stories }

theorem foldl_max_le (xs : List Int) :
    ∀ a : Int, a ≤ xs.foldl max a ∧ ∀ x ∈ xs, x ≤ xs.foldl max a := by
  induction xs with
  | nil =>
      intro a
      exact ⟨le_refl a, by simp⟩
  | cons y ys ih =>
      intro a
      obtain ⟨h1, h2⟩ := ih (max a y)
      refine ⟨le_trans (le_max_left a y) h1, ?_⟩
      intro x hx
      rcases List.mem_cons.mp hx with rfl | hx
      · exact le_trans (le_max_right a x) h1
      · exact h2 x hx

theorem le_maxOr0 (l : List Int) : ∀ x ∈ l, x ≤ maxOr0 l := by
  rcases l with _ | ⟨y, ys⟩
  · simp
  · intro x hx
    rcases List.mem_cons.mp hx with rfl | hx
    · exact (foldl_max_le ys x).1
    · exact (foldl_max_le ys y).2 x hx

theorem addStories_mem (titles : List String) :
    ∀ (cands : List (String × String × List String)) (nid np : Int),
      ∀ st ∈ addStories titles nid np cands,
        nid ≤ st.id ∧ np ≤ st.priority ∧
        titles.contains (strToLower st.title) = false ∧ st.passes = false := by
  intro cands
  induction cands with
  | nil =>
      intro nid np st hst
      exact absurd hst (List.not_mem_nil st)
  | cons c rest ih =>
      intro nid np st hst
      rcases c with ⟨title, descr, criteria⟩
      by_cases hc : titles.contains (strToLower title) = true
      · simp only [addStories, if_pos hc] at hst
        exact ih nid np st hst
      · simp only [addStories, if_neg hc] at hst
        rcases List.mem_cons.mp hst with rfl | hst
        · exact ⟨le_refl _, le_refl _, by simpa using hc, rfl⟩
        · obtain ⟨h1, h2, h3, h4⟩ := ih (nid + 1) (np + 1) st hst
          exact ⟨by omega, by omega, h3, h4⟩

theorem addStories_nodup (titles : List String) :
    ∀ (cands : List (String × String × List String)) (nid np : Int),
      ((addStories titles nid np cands).map (·.id)).Nodup := by
  intro cands
  induction cands with
  | nil =>
      intro nid np
      simp [addStories]
  | cons c rest ih =>
      intro nid np
      rcases c with ⟨title, descr, criteria⟩
      by_cases hc : titles.contains (strToLower title) = true
      · simp only [addStories, if_pos hc]
        exact ih nid np
      · simp only [addStories, if_neg hc]
        rw [List.map_cons, List.nodup_cons]
        refine ⟨?_, ih (nid + 1) (np + 1)⟩
        intro hmem
        rw [List.mem_map] at hmem
        obtain ⟨st, hst, hid⟩ := hmem
        have hge := (addStories_mem titles rest (nid + 1) (np + 1) st hst).1
        simp only at hid
        omega

theorem addStories_get? (titles : List String) :
    ∀ (cands : List (String × String × List String)) (nid np : Int)
      (k : Nat) (st : UserStory),
      (addStories titles nid np cands).get? k = some st →
      st.id = nid + k ∧ st.priority = np + k := by
  intro cands
  induction cands with
  | nil =>
      intro nid np k st h
      simp [addStories] at h
  | cons c rest ih =>
      intro nid np k st h
      rcases c with ⟨title, descr, criteria⟩
      by_cases hc : titles.contains (strToLower title) = true
      · simp only [addStories, if_pos hc] at h
        exact ih nid np k st h
      · simp only [addStories, if_neg hc] at h
        cases k with
        | zero =>
            rw [List.get?_cons_zero] at h
            injection h with h
            subst h
            exact ⟨by simp, by simp⟩
        | succ k2 =>
            rw [List.get?_cons_succ] at h
            obtain ⟨h1, h2⟩ := ih (nid + 1) (np + 1) k2 st h
            constructor <;> omega

/-- C10: enhancing a PRD with pairwise-distinct story ids only appends
stories: the pre-existing stories survive unchanged as a prefix, each
appended story's id and priority strictly exceed every pre-existing one and
run consecutively from the maxima plus one, the combined ids stay pairwise
distinct, and no appended story's lowercased title equals a pre-existing
story's lowercased title. -/
theorem C10_enhance_appends (existing_prd : PRD) (session : ClarifySession)
    (hnd : (existing_prd.stories.map (·.id)).Nodup) :
    ∃ new : List UserStory,
      (enhance_prd_from_session existing_prd session).stories =
        existing_prd.stories ++ new ∧
      (∀ st ∈ new, ∀ s ∈ existing_prd.stories,
        s.id < st.id ∧ s.priority < st.priority ∧
        strToLower s.title ≠ strToLower st.title) ∧
      (∀ (k : Nat) (st : UserStory), new.get? k = some st →
        st.id = maxOr0 (existing_prd.stories.map (·.id)) + 1 + k ∧
        st.priority = maxOr0 (existing_prd.stories.map (·.priority)) + 1 + k ∧
        st.passes = false) ∧
      ((enhance_prd_from_session existing_prd session).stories.map (·.id)).Nodup := by
  refine ⟨addStories (existing_prd.stories.map (fun s => strToLower s.title))
      (maxOr0 (existing_prd.stories.map (·.id)) + 1)
      (maxOr0 (existing_prd.stories.map (·.priority)) + 1)
      (enhanceCandidates existing_prd session), rfl, ?_, ?_, ?_⟩
  · intro st hst s hs
    obtain ⟨h1, h2, h3, _⟩ := addStories_mem _ _ _ _ st hst
    have hid : s.id ≤ maxOr0 (existing_prd.stories.map (·.id)) :=
      le_maxOr0 _ _ (List.mem_map_of_mem _ hs)
    have hpr : s.priority ≤ maxOr0 (existing_prd.stories.map (·.priority)) :=
      le_maxOr0 _ _ (List.mem_map_of_mem _ hs)
    refine ⟨by omega, by omega, ?_⟩
    have hnm : strToLower st.title ∉
        existing_prd.stories.map (fun s => strToLower s.title) := by
      simpa using h3
    intro hcontra
    exact hnm (hcontra ▸ List.mem_map_of_mem _ hs)
  · intro k st h
    obtain ⟨h1, h2⟩ := addStories_get? _ _ _ _ k st h
    have h4 := (addStories_mem _ _ _ _ st (List.get?_mem h)).2.2.2
    exact ⟨h1, h2, h4⟩
  · show ((existing_prd.stories ++ _).map (·.id)).Nodup
    rw [List.map_append, List.nodup_append]
    refine ⟨hnd, addStories_nodup _ _ _ _, ?_⟩
    intro a ha hb
    rw [List.mem_map] at ha hb
    obtain ⟨s, hs, hsa⟩ := ha
    obtain ⟨t, ht, hta⟩ := hb
    have h1 := (addStories_mem _ _ _ _ t ht).1
    have h2 := le_maxOr0 (existing_prd.stories.map (·.id)) s.id
      (List.mem_map_of_mem _ hs)
    omega

/-- A clarify session whose answers request authentication only. -/
def sessionC : ClarifySession :=
  { id := "c1", topic := "Demo"
  , answers := [("auth_method", "OAuth"), ("testing_level", "Minimal")]
  , mode := "enhance", is_complete := true }

/-- Witness for C10: enhancing the three-story demo PRD with an
authentication-requesting session appends exactly one story and keeps ids
pairwise distinct. -/
theorem C10_enhance_appends_witness :
    ((enhance_prd_from_session prdA sessionC).stories.map (·.id)).Nodup ∧
    (enhance_prd_from_session prdA sessionC).stories.length = 4 := by
  obtain ⟨new, heq, hmem, hget, hnodup⟩ :=
    C10_enhance_appends prdA sessionC (by decide)
  exact ⟨hnodup, by decide⟩

end TakopiRalph
